import Mathlib

/-!
Verification of the chunked-transcription pipeline of `whisper-cli`
(`main.go` and package `whisper`), as a shallow embedding.

Numeric model: Go `float64` seconds/durations are modelled as `ℚ`;
Go `int`/`int64` truncating conversions and `/`, `%` are modelled with
`Int.tdiv` / `Int.tmod` (Go rounds toward zero).  The external world
(filesystem, ffprobe, the OpenAI transcription endpoint) is abstracted
as an environment indexed by the chunk number, since each chunk file
name `chunk_%03d.m4a` is determined by its index.
-/

/-- One transcribed span, `whisper.Segment` (fields `Start`, `End`, `Text`
in `whisper/whisper.go`). -/
structure Segment where
  Start : ℚ
  End : ℚ
  Text : String
deriving DecidableEq

/-- The timestamp shift applied at the end of `whisper.TranscribeAudio`:
`result.Segments[i].Start += offset; result.Segments[i].End += offset`. -/
def shiftSegments (offset : ℚ) (segs : List Segment) : List Segment :=
  segs.map fun s => { s with Start := s.Start + offset, End := s.End + offset }

/-- The external world of one run, indexed by chunk number `i`
(the chunk file is `fmt.Sprintf(outputPattern, i)`).

* `chunkExists i` — `os.Stat(chunkFile)` does not report `IsNotExist`;
* `probe i` — `whisper.GetDuration(chunkFile)`: `some` duration or an error;
* `cache i` — reading the intermediate file
  `strings.TrimSuffix(chunkFile, ext) + "_transcription.json"` and
  unmarshalling it: `some segs` iff the file exists and parses as
  `[]whisper.Segment`, `none` if it is absent or unparsable;
* `service i` — the raw (chunk-relative) segments the transcription
  endpoint returns for this chunk, `none` on a request/parse error;
* `cacheWriteOk i` — whether `os.WriteFile` of the intermediate file
  succeeds. -/
structure Env where
  chunkExists : Nat → Bool
  probe : Nat → Option ℚ
  cache : Nat → Option (List Segment)
  service : Nat → Option (List Segment)
  cacheWriteOk : Nat → Bool

/-- `whisper.TranscribeAudio(ctx, client, chunkFile, offset, language)`:
call the endpoint for chunk `i`; on success shift every returned
segment by `offset`. -/
def transcribeAudio (env : Env) (i : Nat) (offset : ℚ) : Option (List Segment) :=
  (env.service i).map (shiftSegments offset)

/-- The anonymous closure in `main.go` that produces the segments of one
chunk: on a valid cache hit return the cached segments directly
(unshifted, without calling the endpoint); otherwise call
`whisper.TranscribeAudio` with the current offset, returning its error
if it fails.  Persisting the fresh result never changes the returned
segments. -/
def chunkSegments (env : Env) (i : Nat) (offset : ℚ) : Option (List Segment) :=
  match env.cache i with
  | some segs => some segs
  | none => transcribeAudio env i offset

/-- What the closure in `main.go` writes to the chunk's intermediate
`_transcription.json` file during this run: only on the transcription
path (cache miss, successful call) and only when the write succeeds.
`json.MarshalIndent` cannot fail on `[]whisper.Segment`. -/
def persistedArtifact (env : Env) (i : Nat) (offset : ℚ) : Option (List Segment) :=
  match env.cache i with
  | some _ => none
  | none =>
    match transcribeAudio env i offset with
    | some segs => if env.cacheWriteOk i then some segs else none
    | none => none

/-- The chunk loop of `main.go` (`for i := 0; ; i++`), with explicit fuel
since the Go loop has no bound.  Stops when the chunk file is missing or
when `GetDuration` fails; otherwise appends the chunk's segments (the
dropped error of the closure makes a failed chunk contribute `nil`,
i.e. nothing) and advances `offset` by the probed duration. -/
def runChunks (env : Env) : Nat → Nat → ℚ → List Segment → List Segment
  | 0, _, _, acc => acc
  | fuel + 1, i, offset, acc =>
    if env.chunkExists i then
      match env.probe i with
      | some dur =>
        runChunks env fuel (i + 1) (offset + dur)
          (acc ++ (chunkSegments env i offset).getD [])
      | none => acc
    else acc

/-- Truncation of a rational toward zero, the conversion Go performs in
`time.Duration(seconds * float64(time.Second))` and in `int(...)`. -/
def ratTrunc (q : ℚ) : Int :=
  Int.tdiv q.num q.den

/-- Go `fmt.Sprintf("%02d", n)`: left-pad with `0` to width two. -/
def pad2 (n : Int) : String :=
  if 0 ≤ n ∧ n < 10 then "0" ++ toString n else toString n

/-- `formatTimestamp` of `main.go`: nanoseconds via `time.Duration`,
then `int(duration.Hours())`, `int(duration.Minutes()) % 60`,
`int(duration.Seconds()) % 60`, each printed with `%02d`. -/
def formatTimestamp (seconds : ℚ) : String :=
  let ns : Int := ratTrunc (seconds * 1000000000)
  let hours : Int := Int.tdiv ns 3600000000000
  let minutes : Int := Int.tmod (Int.tdiv ns 60000000000) 60
  let secs : Int := Int.tmod (Int.tdiv ns 1000000000) 60
  pad2 hours ++ ":" ++ pad2 minutes ++ ":" ++ pad2 secs

/-- Modelled from the spec's words (for comparison with `formatTimestamp`):
truncate the seconds value to whole hours, whole minutes mod 60 and
whole seconds mod 60, each zero-padded to two digits. -/
def specFormatTimestamp (seconds : ℚ) : String :=
  pad2 (ratTrunc (seconds / 3600)) ++ ":" ++
    pad2 (Int.tmod (ratTrunc (seconds / 60)) 60) ++ ":" ++
    pad2 (Int.tmod (ratTrunc seconds) 60)

/-- The plain-text rendering: each segment's text followed by a newline,
in sequence order (`textResult.WriteString(seg.Text); ...("\n")`). -/
def renderText (segs : List Segment) : String :=
  segs.foldl (fun acc s => acc ++ s.Text ++ "\n") ""

/-- One line of the timestamped rendering:
`fmt.Sprintf("[%s - %s] %s\n", startTime, endTime, segment.Text)`. -/
def timestampLine (s : Segment) : String :=
  "[" ++ formatTimestamp s.Start ++ " - " ++ formatTimestamp s.End ++ "] " ++ s.Text ++ "\n"

/-- The timestamped-text rendering of `main.go`. -/
def renderTimestamped (segs : List Segment) : String :=
  segs.foldl (fun acc s => acc ++ timestampLine s) ""

/-- The three artifacts `main.go` writes after the loop:
`transcription.json` (modelled as the serialized segment list itself),
`transcription.txt` and `transcription_with_timestamps.txt`. -/
structure Output where
  json : List Segment
  text : String
  timestamped : String
deriving DecidableEq

/-- The finalize step of `main.go`: render all three artifacts from the
accumulated segment list. -/
def renderOutputs (segs : List Segment) : Output :=
  { json := segs, text := renderText segs, timestamped := renderTimestamped segs }

/-- The whole pipeline after splitting: run the chunk loop from index 0
with offset 0.0 and an empty segment list, then render the outputs. -/
def mainPipeline (env : Env) (fuel : Nat) : Output :=
  renderOutputs (runChunks env fuel 0 0 [])

/-- Sum of the durations of the chunks before chunk `k`. -/
def durSum (d : Nat → ℚ) (k : Nat) : ℚ :=
  ((List.range k).map d).sum

/-- The accumulator of the loop factors out: `allSegments` only ever grows
by appending on the right. -/
theorem runChunks_append (env : Env) :
    ∀ fuel i offset acc, runChunks env fuel i offset acc
      = acc ++ runChunks env fuel i offset [] := by
  intro fuel
  induction fuel with
  | zero => intro i offset acc; simp [runChunks]
  | succ f ih =>
    intro i offset acc
    by_cases hchk : env.chunkExists i
    · cases hpr : env.probe i with
      | none => simp [runChunks, hchk, hpr]
      | some dur =>
        simp only [runChunks, hchk, hpr, if_true]
        rw [ih (i + 1) (offset + dur) (acc ++ (chunkSegments env i offset).getD []),
          ih (i + 1) (offset + dur) ([] ++ (chunkSegments env i offset).getD [])]
        simp
    · simp [runChunks, hchk]

/-- Left-peeling of a shifted range sum. -/
theorem sum_range_shift (d : Nat → ℚ) (i k : Nat) :
    ((List.range (k + 1)).map fun j => d (i + j)).sum
      = d i + ((List.range k).map fun j => d (i + 1 + j)).sum := by
  rw [List.range_succ_eq_map, List.map_cons, List.sum_cons, List.map_map]
  have h : ((fun j => d (i + j)) ∘ Nat.succ) = fun j => d (i + 1 + j) := by
    funext j
    have hj : i + Nat.succ j = i + 1 + j := by omega
    simp [Function.comp, hj]
  rw [h, Nat.add_zero]

/-- Master description of the chunk loop: if chunks `i, …, i+n-1` exist with
probed durations given by `d`, and the loop stops at index `i+n` (missing
chunk or probe failure), then the loop's result is the concatenation, in
index order, of each chunk's segments obtained at the running offset. -/
theorem runChunks_master (env : Env) (d : Nat → ℚ) (n : Nat) :
    ∀ fuel i offset,
      (∀ k, i ≤ k → k < i + n → env.chunkExists k = true) →
      (∀ k, i ≤ k → k < i + n → env.probe k = some (d k)) →
      (env.chunkExists (i + n) = false ∨ env.probe (i + n) = none) →
      n < fuel →
      runChunks env fuel i offset [] =
        (List.range n).flatMap
          fun k => (chunkSegments env (i + k)
            (offset + ((List.range k).map fun j => d (i + j)).sum)).getD [] := by
  induction n with
  | zero =>
    intro fuel i offset _ _ hstop hfuel
    cases fuel with
    | zero => omega
    | succ f =>
      rcases hstop with h | h
      · rw [Nat.add_zero] at h
        simp [runChunks, h]
      · rw [Nat.add_zero] at h
        simp [runChunks, h]
  | succ n ih =>
    intro fuel i offset hex hpr hstop hfuel
    cases fuel with
    | zero => omega
    | succ f =>
      have hexi : env.chunkExists i = true := hex i (Nat.le_refl i) (by omega)
      have hpri : env.probe i = some (d i) := hpr i (Nat.le_refl i) (by omega)
      simp only [runChunks, hexi, hpri, if_true, List.nil_append]
      rw [runChunks_append]
      rw [ih f (i + 1) (offset + d i)
        (fun k hk1 hk2 => hex k (by omega) (by omega))
        (fun k hk1 hk2 => hpr k (by omega) (by omega))
        (by have : i + 1 + n = i + (n + 1) := by omega
            rw [this]; exact hstop)
        (by omega)]
      conv_rhs => rw [List.range_succ_eq_map]
      rw [List.flatMap_cons, List.flatMap_map]
      congr 1
      · simp
      · congr 1
        funext k
        simp only [Function.comp, Nat.succ_eq_add_one]
        rw [sum_range_shift]
        have hidx : i + (k + 1) = i + 1 + k := by omega
        rw [hidx, ← add_assoc]

/-- The loop from the start: chunks `0 … n-1` exist and probe as `d`,
the loop stops at `n`; the result concatenates each chunk's segments
obtained at offset `durSum d k`. -/
theorem runChunks_flat (env : Env) (d : Nat → ℚ) (n fuel : Nat)
    (hex : ∀ k, k < n → env.chunkExists k = true)
    (hpr : ∀ k, k < n → env.probe k = some (d k))
    (hstop : env.chunkExists n = false ∨ env.probe n = none)
    (hfuel : n < fuel) :
    runChunks env fuel 0 0 [] =
      (List.range n).flatMap fun k => (chunkSegments env k (durSum d k)).getD [] := by
  have h := runChunks_master env d n fuel 0 0
    (fun k _ hk2 => hex k (by omega)) (fun k _ hk2 => hpr k (by omega))
    (by simpa using hstop) hfuel
  simpa [durSum] using h

/-- On nonnegative rationals, truncation toward zero is the floor. -/
theorem ratTrunc_eq_floor (q : ℚ) (hq : 0 ≤ q) : ratTrunc q = ⌊q⌋ := by
  rw [Rat.floor_def]
  exact Int.tdiv_eq_ediv (Rat.num_nonneg.mpr hq) (by positivity)

/-- Dividing the floor of `q * m` by `m * k` (truncating) gives the floor
of `q / k`, for nonnegative `q`. -/
theorem floor_mul_tdiv (q : ℚ) (hq : 0 ≤ q) (m k : ℕ) (hm : 0 < m) (hk : 0 < k) :
    Int.tdiv ⌊q * (m : ℚ)⌋ ((m : ℤ) * (k : ℤ)) = ⌊q / (k : ℚ)⌋ := by
  have hqm : (0 : ℚ) ≤ q * m := by positivity
  rw [Int.tdiv_eq_ediv (Int.floor_nonneg.mpr hqm) (by positivity)]
  rw [← Int.natCast_floor_eq_floor hqm]
  have hcast : ((m : ℤ) * (k : ℤ)) = ((m * k : ℕ) : ℤ) := by push_cast; ring
  rw [hcast, ← Int.ofNat_ediv, ← Nat.floor_div_nat (q * (m : ℚ)) (m * k)]
  have hdiv : q * (m : ℚ) / ((m * k : ℕ) : ℚ) = q / (k : ℚ) := by
    push_cast
    rw [mul_comm (m : ℚ) (k : ℚ)]
    exact mul_div_mul_right _ _ (by positivity)
  rw [hdiv, Int.natCast_floor_eq_floor (by positivity)]

/-- `formatTimestamp` agrees with the spec's description (truncate to
whole hours, minutes mod 60, seconds mod 60) on nonnegative inputs. -/
theorem formatTimestamp_eq_spec (q : ℚ) (hq : 0 ≤ q) :
    formatTimestamp q = specFormatTimestamp q := by
  have hm : (0 : ℕ) < 1000000000 := by norm_num
  have h1 := floor_mul_tdiv q hq 1000000000 3600 hm (by norm_num)
  have h2 := floor_mul_tdiv q hq 1000000000 60 hm (by norm_num)
  have h3 := floor_mul_tdiv q hq 1000000000 1 hm (by norm_num)
  push_cast at h1 h2 h3
  norm_num at h1 h2 h3
  simp only [formatTimestamp, specFormatTimestamp,
    ratTrunc_eq_floor (q * 1000000000) (by positivity),
    ratTrunc_eq_floor (q / 3600) (by positivity),
    ratTrunc_eq_floor (q / 60) (by positivity),
    ratTrunc_eq_floor q hq]
  rw [h1, h2, h3]

/-- Evaluation of `formatTimestamp` at 3725.9 seconds. -/
theorem formatTimestamp_3725_9 : formatTimestamp 3725.9 = "01:02:05" := by
  have h : (3725.9 : ℚ) * 1000000000 = 3725900000000 := by norm_num
  simp only [formatTimestamp, h, ratTrunc, Rat.num_ofNat, Rat.den_ofNat]
  decide

/-- Evaluation of `formatTimestamp` at 0 seconds. -/
theorem formatTimestamp_zero : formatTimestamp 0 = "00:00:00" := by
  have h : (0 : ℚ) * 1000000000 = 0 := by norm_num
  simp only [formatTimestamp, h, ratTrunc, Rat.num_ofNat, Rat.den_ofNat]
  decide

/-- Evaluation of `formatTimestamp` at 59.999 seconds: truncation, not
rounding. -/
theorem formatTimestamp_59_999 : formatTimestamp 59.999 = "00:00:59" := by
  have h : (59.999 : ℚ) * 1000000000 = 59999000000 := by norm_num
  simp only [formatTimestamp, h, ratTrunc, Rat.num_ofNat, Rat.den_ofNat]
  decide

/-- Evaluation of `formatTimestamp` at 600 seconds. -/
theorem formatTimestamp_600 : formatTimestamp 600 = "00:10:00" := by
  have h : (600 : ℚ) * 1000000000 = 600000000000 := by norm_num
  simp only [formatTimestamp, h, ratTrunc, Rat.num_ofNat, Rat.den_ofNat]
  decide

/-- Evaluation of `formatTimestamp` at 603 seconds. -/
theorem formatTimestamp_603 : formatTimestamp 603 = "00:10:03" := by
  have h : (603 : ℚ) * 1000000000 = 603000000000 := by norm_num
  simp only [formatTimestamp, h, ratTrunc, Rat.num_ofNat, Rat.den_ofNat]
  decide

/-- Claim C8: `formatTimestamp` converts a nonnegative seconds value to
`HH:MM:SS` by truncation (hours, minutes mod 60, seconds mod 60, each
zero-padded to two digits, fractional seconds dropped), and in
particular maps 3725.9 to `01:02:05`, 0 to `00:00:00` and 59.999 to
`00:00:59`. -/
theorem C8_formatTimestamp_truncates :
    (∀ q : ℚ, 0 ≤ q → formatTimestamp q = specFormatTimestamp q)
    ∧ formatTimestamp 3725.9 = "01:02:05"
    ∧ formatTimestamp 0 = "00:00:00"
    ∧ formatTimestamp 59.999 = "00:00:59" :=
  ⟨formatTimestamp_eq_spec, formatTimestamp_3725_9, formatTimestamp_zero,
    formatTimestamp_59_999⟩

/-- Witness for C8 at the concrete input 3725.9. -/
theorem C8_formatTimestamp_truncates_witness :
    (0 : ℚ) ≤ 3725.9 ∧ formatTimestamp 3725.9 = specFormatTimestamp 3725.9 :=
  ⟨by norm_num, C8_formatTimestamp_truncates.1 3725.9 (by norm_num)⟩

/-- The loop never reads `cacheWriteOk`: a cache-write failure cannot
change the in-memory transcript. -/
theorem runChunks_cacheWriteOk_irrel (env : Env) (w : Nat → Bool) :
    ∀ fuel i offset acc,
      runChunks { env with cacheWriteOk := w } fuel i offset acc
        = runChunks env fuel i offset acc := by
  intro fuel
  induction fuel with
  | zero => intro i offset acc; rfl
  | succ f ih =>
    intro i offset acc
    by_cases h : env.chunkExists i
    · cases hp : env.probe i with
      | none => simp [runChunks, h, hp]
      | some dur => simp [runChunks, h, hp, ih, chunkSegments, transcribeAudio]
    · simp [runChunks, h]

/-- Durations used by the two-chunk example environment. -/
def dA : Nat → ℚ := fun i => if i = 0 then 600 else 45.3

/-- A deterministic two-chunk world: chunks 0 and 1 exist (600 s and
45.3 s), nothing is cached, the service returns one segment per chunk. -/
def envA : Env where
  chunkExists := fun i => i < 2
  probe := fun i => if i < 2 then some (dA i) else none
  cache := fun _ => none
  service := fun i =>
    if i = 0 then some [⟨0, 5, "hello"⟩]
    else if i = 1 then some [⟨0, 3, "world"⟩] else none
  cacheWriteOk := fun _ => true

/-- A two-chunk world where the transcription call for chunk 0 fails
(no cache hit) while chunk 1 transcribes fine. -/
def envSvcFail : Env where
  chunkExists := fun i => i < 2
  probe := fun i => if i < 2 then some 600 else none
  cache := fun _ => none
  service := fun i => if i = 1 then some [⟨0, 3, "world"⟩] else none
  cacheWriteOk := fun _ => true

/-- A three-chunk world (chunk 3 missing). -/
def envB : Env where
  chunkExists := fun i => i < 3
  probe := fun i => if i < 3 then some 10 else none
  cache := fun _ => none
  service := fun i =>
    if i = 0 then some [⟨0, 1, "a"⟩]
    else if i = 1 then some [⟨0, 1, "b"⟩]
    else if i = 2 then some [⟨0, 1, "c"⟩] else none
  cacheWriteOk := fun _ => true

/-- A one-chunk world whose chunk 0 has a valid cache artifact. -/
def envCached : Env where
  chunkExists := fun i => i < 1
  probe := fun i => if i < 1 then some 10 else none
  cache := fun i => if i = 0 then some [⟨7, 8, "cached"⟩] else none
  service := fun _ => some [⟨0, 1, "fresh"⟩]
  cacheWriteOk := fun _ => true

/-- A world where chunk 1 exists but probing its duration fails. -/
def envProbeFail : Env where
  chunkExists := fun _ => true
  probe := fun i => if i = 0 then some 600 else none
  cache := fun _ => none
  service := fun i => if i = 0 then some [⟨0, 5, "hello"⟩] else none
  cacheWriteOk := fun _ => true

/-- A one-chunk world where persisting the cache artifact fails. -/
def envWriteFail : Env where
  chunkExists := fun i => i < 1
  probe := fun i => if i < 1 then some 10 else none
  cache := fun _ => none
  service := fun i => if i = 0 then some [⟨0, 1, "x"⟩] else none
  cacheWriteOk := fun _ => false

/-- Claim C2: processing chunks in index order with durations
`d 0, d 1, …`, the base offset passed for chunk `k` (to the cache
check / timestamp shift) is exactly `d 0 + … + d (k-1)`, i.e. the sum
over `List.range k`; the offset is advanced by exactly the probed
duration after each chunk.  Holds for all rational durations, zero and
fractional included. -/
theorem C2_offset_is_prefix_sum (env : Env) (d : Nat → ℚ) (n fuel : Nat)
    (hex : ∀ k, k < n → env.chunkExists k = true)
    (hpr : ∀ k, k < n → env.probe k = some (d k))
    (hnex : env.chunkExists n = false)
    (hfuel : n < fuel) :
    runChunks env fuel 0 0 [] =
      (List.range n).flatMap
        fun k => (chunkSegments env k (((List.range k).map d).sum)).getD [] := by
  have h := runChunks_flat env d n fuel hex hpr (Or.inl hnex) hfuel
  simpa [durSum] using h

/-- Witness for C2 on the concrete two-chunk environment. -/
theorem C2_offset_is_prefix_sum_witness :
    runChunks envA 3 0 0 [] =
      (List.range 2).flatMap
        fun k => (chunkSegments envA k (((List.range k).map dA).sum)).getD [] :=
  C2_offset_is_prefix_sum envA dA 2 3
    (by intro k hk; simp [envA, hk]) (by intro k hk; simp [envA, hk])
    (by simp [envA]) (by norm_num)

/-- Claim C7: enumeration runs `0, 1, 2, …` and stops at the first
missing chunk; with chunks 0..2 present and chunk 3 absent, the
transcript is exactly the segments of chunks 0, 1, 2 concatenated in
index order. -/
theorem C7_stops_at_first_missing_chunk (env : Env) (d : Nat → ℚ) (fuel : Nat)
    (hex : ∀ k, k < 3 → env.chunkExists k = true)
    (hpr : ∀ k, k < 3 → env.probe k = some (d k))
    (hnex : env.chunkExists 3 = false)
    (hfuel : 3 < fuel) :
    runChunks env fuel 0 0 [] =
      (chunkSegments env 0 0).getD [] ++ (chunkSegments env 1 (d 0)).getD []
        ++ (chunkSegments env 2 (d 0 + d 1)).getD [] := by
  have h := runChunks_flat env d 3 fuel hex hpr (Or.inl hnex) hfuel
  have hr : List.range 3 = [0, 1, 2] := by decide
  rw [h, hr]
  simp [durSum, List.range_succ]

/-- Witness for C7 on the concrete three-chunk environment. -/
theorem C7_stops_at_first_missing_chunk_witness :
    runChunks envB 5 0 0 [] =
      (chunkSegments envB 0 0).getD [] ++ (chunkSegments envB 1 (10 : ℚ)).getD []
        ++ (chunkSegments envB 2 ((10 : ℚ) + 10)).getD [] :=
  C7_stops_at_first_missing_chunk envB (fun _ => 10) 5
    (by intro k hk; simp [envB, hk]) (by intro k hk; simp [envB, hk])
    (by simp [envB]) (by norm_num)

/-- Claim C6: if probing chunk `n`'s duration fails, iteration stops as
if no more chunks existed, and everything accumulated from chunks
`0 … n-1` is still rendered to all three output artifacts. -/
theorem C6_probe_failure_keeps_partial_output (env : Env) (d : Nat → ℚ)
    (n fuel : Nat)
    (hex : ∀ k, k < n → env.chunkExists k = true)
    (hpr : ∀ k, k < n → env.probe k = some (d k))
    (_hexn : env.chunkExists n = true)
    (hprn : env.probe n = none)
    (hfuel : n < fuel) :
    mainPipeline env fuel =
      renderOutputs ((List.range n).flatMap
        fun k => (chunkSegments env k (durSum d k)).getD []) := by
  unfold mainPipeline
  rw [runChunks_flat env d n fuel hex hpr (Or.inr hprn) hfuel]

/-- Witness for C6: chunk 1 exists but its probe fails; chunk 0 is
still rendered. -/
theorem C6_probe_failure_keeps_partial_output_witness :
    mainPipeline envProbeFail 2 =
      renderOutputs ((List.range 1).flatMap
        fun k => (chunkSegments envProbeFail k
          (durSum (fun _ => (600 : ℚ)) k)).getD []) :=
  C6_probe_failure_keeps_partial_output envProbeFail (fun _ => 600) 1 2
    (by intro k hk; simp [envProbeFail])
    (by intro k hk; have h0 : k = 0 := Nat.lt_one_iff.mp hk; subst h0; simp [envProbeFail])
    (by simp [envProbeFail]) (by simp [envProbeFail]) (by norm_num)

/-- Claim C4: a chunk with a valid cache artifact returns the cached
segments verbatim — for any service behaviour and any current offset
(no service call, no re-shift); on a cache miss the service result is
shifted by the current offset, and (when the write succeeds) exactly
that shifted list is persisted. -/
theorem C4_cache_hit_skips_service (env : Env) (i : Nat) (offset : ℚ) :
    (∀ segs, env.cache i = some segs →
      ∀ svc (offset' : ℚ),
        chunkSegments { env with service := svc } i offset' = some segs)
    ∧ (env.cache i = none →
        chunkSegments env i offset = (env.service i).map (shiftSegments offset)
        ∧ (env.cacheWriteOk i = true →
            persistedArtifact env i offset
              = (env.service i).map (shiftSegments offset))) := by
  constructor
  · intro segs hc svc offset'
    simp [chunkSegments, hc]
  · intro hc
    refine ⟨by simp [chunkSegments, transcribeAudio, hc], fun hw => ?_⟩
    cases hs : env.service i with
    | none => simp [persistedArtifact, transcribeAudio, hc, hs]
    | some raw => simp [persistedArtifact, transcribeAudio, hc, hs, hw]

/-- Witness for C4: the cached chunk's segments come back verbatim even
when the service is replaced by one that always fails, at an arbitrary
offset. -/
theorem C4_cache_hit_skips_service_witness :
    chunkSegments { envCached with service := fun _ => none } 0 5
      = some [⟨7, 8, "cached"⟩] :=
  (C4_cache_hit_skips_service envCached 0 0).1 [⟨7, 8, "cached"⟩] rfl _ 5

/-- Claim C5: when transcription of chunk `i` fails with no cache hit,
the loop nevertheless continues with chunk `i + 1`: the failed chunk
contributes no segments, yet the offset is still advanced by its probed
duration, so all later chunks are shifted by the full cumulative
duration. -/
theorem C5_failed_chunk_contributes_nothing (env : Env) (i fuel : Nat)
    (offset dur : ℚ) (acc : List Segment)
    (hex : env.chunkExists i = true)
    (hpr : env.probe i = some dur)
    (hc : env.cache i = none)
    (hs : env.service i = none) :
    chunkSegments env i offset = none
    ∧ runChunks env (fuel + 1) i offset acc
        = runChunks env fuel (i + 1) (offset + dur) acc := by
  have hseg : chunkSegments env i offset = none := by
    simp [chunkSegments, transcribeAudio, hc, hs]
  exact ⟨hseg, by simp [runChunks, hex, hpr, hseg]⟩

/-- Witness for C5 on the environment whose chunk-0 transcription
fails. -/
theorem C5_failed_chunk_contributes_nothing_witness :
    chunkSegments envSvcFail 0 0 = none
    ∧ runChunks envSvcFail 3 0 0 [] = runChunks envSvcFail 2 1 (0 + 600) [] :=
  C5_failed_chunk_contributes_nothing envSvcFail 0 2 0 600 []
    (by simp [envSvcFail]) (by simp [envSvcFail]) rfl rfl

/-- Claim C9: when persisting a chunk's cache artifact fails, nothing is
written, but the freshly obtained shifted segments are still returned
and appended, and the transcript of the whole run is unaffected by the
value of `cacheWriteOk`. -/
theorem C9_cache_write_failure_recoverable (env : Env) (i fuel : Nat)
    (offset dur : ℚ) (acc raw : List Segment)
    (hex : env.chunkExists i = true)
    (hpr : env.probe i = some dur)
    (hc : env.cache i = none)
    (hs : env.service i = some raw)
    (hw : env.cacheWriteOk i = false) :
    chunkSegments env i offset = some (shiftSegments offset raw)
    ∧ persistedArtifact env i offset = none
    ∧ runChunks env (fuel + 1) i offset acc
        = runChunks env fuel (i + 1) (offset + dur) (acc ++ shiftSegments offset raw)
    ∧ ∀ w fuel' j (offset' : ℚ) acc',
        runChunks { env with cacheWriteOk := w } fuel' j offset' acc'
          = runChunks env fuel' j offset' acc' := by
  have hseg : chunkSegments env i offset = some (shiftSegments offset raw) := by
    simp [chunkSegments, transcribeAudio, hc, hs]
  refine ⟨hseg, ?_, ?_, ?_⟩
  · simp [persistedArtifact, transcribeAudio, hc, hs, hw]
  · simp [runChunks, hex, hpr, hseg]
  · intro w fuel' j offset' acc'
    exact runChunks_cacheWriteOk_irrel env w fuel' j offset' acc'

/-- Witness for C9 on the environment whose cache write fails. -/
theorem C9_cache_write_failure_recoverable_witness :
    chunkSegments envWriteFail 0 0 = some (shiftSegments 0 [⟨0, 1, "x"⟩])
    ∧ persistedArtifact envWriteFail 0 0 = none
    ∧ runChunks envWriteFail 2 0 0 []
        = runChunks envWriteFail 1 1 (0 + 10) ([] ++ shiftSegments 0 [⟨0, 1, "x"⟩])
    ∧ ∀ w fuel' j (offset' : ℚ) acc',
        runChunks { envWriteFail with cacheWriteOk := w } fuel' j offset' acc'
          = runChunks envWriteFail fuel' j offset' acc' :=
  C9_cache_write_failure_recoverable envWriteFail 0 1 0 10 [] [⟨0, 1, "x"⟩]
    (by simp [envWriteFail]) (by simp [envWriteFail]) rfl rfl rfl

/-- Claim C1 fails on the code: the error returned by the per-chunk
closure in `main.go` is never checked, so a transcription failure on
chunk 0 (no cache hit) does not terminate the process — chunk 1 is
still processed and all three output artifacts are written.  This
theorem evaluates the pipeline at that failing input. -/
theorem C1_transcription_failure_not_fatal :
    envSvcFail.cache 0 = none
    ∧ chunkSegments envSvcFail 0 0 = none
    ∧ mainPipeline envSvcFail 3 =
        { json := [⟨600, 603, "world"⟩],
          text := "world\n",
          timestamped := "[00:10:00 - 00:10:03] world\n" } := by
  refine ⟨rfl, by simp [chunkSegments, transcribeAudio, envSvcFail], ?_⟩
  have h1 : runChunks envSvcFail 3 0 0 [] = [⟨600, 603, "world"⟩] := by
    norm_num [runChunks, chunkSegments, transcribeAudio, shiftSegments, envSvcFail]
  unfold mainPipeline
  rw [h1]
  simp only [renderOutputs, renderText, renderTimestamped, List.foldl, timestampLine,
    formatTimestamp_600, formatTimestamp_603, Output.mk.injEq]
  refine ⟨trivial, ?_, ?_⟩ <;> decide

/-- Claim C3: resuming with chunks `0 … i` already cached — each cache
artifact being exactly what the corresponding live pass persisted — and
all later chunks served live produces the same outputs (same segments,
order and timestamps) as one uninterrupted run with no cache. -/
theorem C3_resume_reproduces_run (env : Env) (d : Nat → ℚ) (n i fuel : Nat)
    (hcache : ∀ k, env.cache k = none)
    (hex : ∀ k, k < n → env.chunkExists k = true)
    (hpr : ∀ k, k < n → env.probe k = some (d k))
    (hnex : env.chunkExists n = false)
    (hfuel : n < fuel) :
    mainPipeline
      { env with cache := fun k =>
          if k ≤ i then persistedArtifact env k (durSum d k) else none } fuel
      = mainPipeline env fuel := by
  set env' : Env := { env with cache := fun k =>
    if k ≤ i then persistedArtifact env k (durSum d k) else none } with henv'
  unfold mainPipeline
  rw [runChunks_flat env' d n fuel hex hpr (Or.inl hnex) hfuel,
    runChunks_flat env d n fuel hex hpr (Or.inl hnex) hfuel]
  congr 1
  congr 1
  funext k
  by_cases hk : k ≤ i
  · have hc' : env'.cache k = persistedArtifact env k (durSum d k) := by
      simp [henv', hk]
    cases ht : transcribeAudio env k (durSum d k) with
    | none =>
      have hp0 : persistedArtifact env k (durSum d k) = none := by
        simp [persistedArtifact, hcache k, ht]
      simp [chunkSegments, hc', hp0, hcache k, ht, transcribeAudio, henv', hk]
    | some segs =>
      cases hw : env.cacheWriteOk k with
      | false =>
        have hp0 : persistedArtifact env k (durSum d k) = none := by
          simp [persistedArtifact, hcache k, ht, hw]
        simp [chunkSegments, hc', hp0, hcache k, ht, transcribeAudio, henv', hk]
      | true =>
        have hp1 : persistedArtifact env k (durSum d k) = some segs := by
          simp [persistedArtifact, hcache k, ht, hw]
        simp [chunkSegments, hc', hp1, hcache k, ht, hk]
  · have hc' : env'.cache k = none := by simp [henv', hk]
    simp [chunkSegments, hc', hcache k, transcribeAudio, henv', hk]

/-- Witness for C3: resuming after chunk 0 on the two-chunk environment
reproduces the uninterrupted run. -/
theorem C3_resume_reproduces_run_witness :
    mainPipeline
      { envA with cache := fun k =>
          if k ≤ 0 then persistedArtifact envA k (durSum dA k) else none } 3
      = mainPipeline envA 3 :=
  C3_resume_reproduces_run envA dA 2 0 3 (fun _ => rfl)
    (by intro k hk; simp [envA, hk]) (by intro k hk; simp [envA, hk])
    (by simp [envA]) (by norm_num)
